import Mathlib

/-!
Verification of the memory-search test harness (scripts/test-memory-search.py).

Shallow embedding: the script's pure helpers (`cosine_similarity`, `blob_to_vec`,
`vec_to_blob`, the evaluator classification in `run_test`, the summary logic in
`main`) are translated to Lean functions.  External effects (the embedding HTTP
call, the SQLite store, printing, timing) are modelled by explicit parameters:
an `ApiResult` oracle stands for the HTTP response of one embeddings request,
and the two search functions are parameters producing the result rows that the
store queries would return.  Python floats used for scores are modelled as
rationals; the float32 serialization of `struct.pack`/`struct.unpack` is
modelled at the level of IEEE-754 bit patterns on `Nat`.  `sys.exit` and
uncaught exceptions are modelled by the `PyOutcome` type.
-/

/-- Outcome of executing a piece of Python code that may call `sys.exit`
or let an exception escape. -/
inductive PyOutcome (α : Type) where
  | ret (a : α)
  | sysExit (code : Nat)
  | exn (e : String)
deriving DecidableEq, Repr

/-- Terminal status of one test case, as stored in the result dict's
`status` field by `run_test` (`"PASS" | "FAIL" | "BELOW_THRESHOLD" | "skip"`). -/
inductive Status where
  | pass
  | fail
  | below_threshold
  | skip
deriving DecidableEq, Repr

/-- One row produced by `search_vector`: `{score, path, lines, text}`. -/
structure VecResult where
  score : ℚ
  path : String
  lines : String
  text : String
deriving DecidableEq, Repr

/-- One row produced by `search_fts`: either a real row
`{text, path, lines, fts_rank}` or the synthetic `{"error": str(e)}` row
returned when the FTS query raises. -/
inductive FtsRow where
  | row (text path lines : String) (fts_rank : ℚ)
  | err (msg : String)
deriving DecidableEq, Repr

/-- `r.get("text", "")` on an FTS result dict: the error row has no
`text` key, so it yields the empty string. -/
def FtsRow.textOrEmpty : FtsRow → String
  | FtsRow.row t _ _ _ => t
  | FtsRow.err _ => ""

/-- The result dict returned by `run_test`.  The skip dict
`{"status": "skip", "query": query}` has no `top_score` / `above_threshold`
keys, hence the `Option`s.  The `embed_ms` timing field is wall-clock
measurement and is not modelled. -/
structure TestResult where
  status : Status
  query : String
  top_score : Option ℚ
  above_threshold : Option Nat
deriving DecidableEq, Repr

/-- Modelled HTTP interaction of one embeddings request, seen from
`get_embedding`'s `try` block:
* `urlError`: `urlopen` raised `URLError` (connection failure, DNS error,
  or a connect-phase timeout that urllib wraps in `URLError`);
* `badJson`: the body was read but `json.loads` raised `JSONDecodeError`;
* `missingEmbedding`: valid JSON without `data[0]["embedding"]`
  (`KeyError`/`IndexError`/`TypeError` on the subscripts);
* `ok v`: well-formed response carrying embedding vector `v`. -/
inductive ApiResult where
  | urlError (msg : String)
  | badJson
  | missingEmbedding
  | ok (v : List ℚ)
deriving DecidableEq, Repr

/-- The URL chosen when `OPENROUTER_API_KEY` is set. -/
def openrouter_url : String := "https://openrouter.ai/api/v1/embeddings"

/-- The URL chosen when only `OPENAI_API_KEY` is set. -/
def openai_url : String := "https://api.openai.com/v1/embeddings"

/-- Body of `get_embedding`'s `try`/`except URLError` block applied to the
modelled response: only `URLError` is caught (printing a warning and
returning `[]`); `json.loads` errors and missing-field errors are *not*
`URLError` and escape. -/
def embed_response : ApiResult → PyOutcome (List ℚ)
  | ApiResult.urlError _ => PyOutcome.ret []
  | ApiResult.badJson => PyOutcome.exn "json.JSONDecodeError"
  | ApiResult.missingEmbedding => PyOutcome.exn "KeyError"
  | ApiResult.ok v => PyOutcome.ret v

/-- `get_embedding(text)`.  `api url key` models the HTTP response obtained
by POSTing to `url` with bearer token `key` (the query text is fixed by the
caller supplying `api`).  Mirrors the source: `if OPENROUTER_API_KEY:` ...
`elif OPENAI_API_KEY:` ... `else: print(...); sys.exit(1)`; Python string
truthiness is non-emptiness. -/
def get_embedding (OPENROUTER_API_KEY OPENAI_API_KEY : String)
    (api : String → String → ApiResult) : PyOutcome (List ℚ) :=
  if OPENROUTER_API_KEY ≠ "" then
    embed_response (api openrouter_url OPENROUTER_API_KEY)
  else if OPENAI_API_KEY ≠ "" then
    embed_response (api openai_url OPENAI_API_KEY)
  else
    PyOutcome.sysExit 1

/-- `expected.lower() in text.lower()`: case-insensitive substring test,
with `str.lower` modelled as character-wise lowercasing. -/
def lowerContains (hay needle : String) : Bool :=
  decide (List.IsInfix (needle.data.map Char.toLower) (hay.data.map Char.toLower))

/-- The classification logic of `run_test` (lines 213-233): skip on an empty
query vector, otherwise the `vec_pass` / `vec_any` / `fts_pass` checks,
`status = "PASS" if vec_pass or fts_pass else "FAIL"`, then the overriding
`if not vec_pass and vec_any: status = "BELOW_THRESHOLD"`. -/
def classify_status (query_vec : List ℚ) (vec_results : List VecResult)
    (fts_results : List FtsRow) (expected : String) (min_score : ℚ) : Status :=
  if query_vec = [] then Status.skip
  else
    let vec_pass := (vec_results.filter (fun r => min_score ≤ r.score)).any
      (fun r => lowerContains r.text expected)
    let vec_any := vec_results.any (fun r => lowerContains r.text expected)
    let fts_pass := fts_results.any (fun r => lowerContains r.textOrEmpty expected)
    let status := if vec_pass || fts_pass then Status.pass else Status.fail
    if !vec_pass && vec_any then Status.below_threshold else status

/-- `run_test(db, query, expected, description, min_score)`.  The store is
abstracted: `vecSearch qv` stands for `search_vector(db, qv, SCOPE_PREFIX,
limit=MAX_RESULTS)` and `ftsSearch` for `search_fts(db, query, SCOPE_PREFIX,
limit=MAX_RESULTS)` (the latter does not depend on the query vector).
A `sys.exit` or exception inside `get_embedding` propagates: `run_test`
has no handler around it. -/
def run_test (OPENROUTER_API_KEY OPENAI_API_KEY : String)
    (api : String → String → ApiResult)
    (vecSearch : List ℚ → List VecResult) (ftsSearch : List FtsRow)
    (query expected : String) (min_score : ℚ) : PyOutcome TestResult :=
  match get_embedding OPENROUTER_API_KEY OPENAI_API_KEY api with
  | PyOutcome.sysExit c => PyOutcome.sysExit c
  | PyOutcome.exn e => PyOutcome.exn e
  | PyOutcome.ret query_vec =>
    if query_vec = [] then
      PyOutcome.ret ⟨Status.skip, query, none, none⟩
    else
      let vec_results := vecSearch query_vec
      let fts_results := ftsSearch
      let top_score : ℚ := ((vec_results.head?).map VecResult.score).getD 0
      let above_threshold := (vec_results.filter (fun r => min_score ≤ r.score)).length
      PyOutcome.ret ⟨classify_status query_vec vec_results fts_results expected min_score,
        query, some top_score, some above_threshold⟩

/-- The module-level `TEST_CASES` list:
`(query_as_user_would_say, expected_answer_substring, description)`. -/
def TEST_CASES : List (String × String × String) :=
  [ ("hey can I get somebody on a call to talk about this deal?",
     "CloudWarriors",
     "Presales call request - should ask if CW is partner"),
    ("Can I get someone to hop on a call?",
     "money",
     "Hop on a call - for money (trained pair 1)"),
    ("Can I get presales assistance?",
     "CloudWarriors is the partner",
     "Presales assistance - partner check (trained pair 2)"),
    ("there is already a partner on this deal",
     "minimum of $10k",
     "Partner exists - $10k minimum (trained pair 3)"),
    ("what is the minimum cost for an implementation?",
     "minimum engagement",
     "Minimum engagement pricing question"),
    ("I need an executable SOW",
     "SOW",
     "SOW request - should match SOW-related Q&A"),
    ("can you scope out a custom integration?",
     "integration",
     "Custom integration question"),
    ("I need a quote on CW paper",
     "quote",
     "Quote request"),
    ("Team, availability for a scoping call next week?",
     "scoping",
     "Scoping call availability (first Q&A pair in training)"),
    ("what is the deal registration status?",
     "deal",
     "Deal registration question") ]

/-- How a run of `main` can end: a `sys.exit(code)` or an uncaught
exception aborting the interpreter. -/
inductive RunEnd where
  | exited (code : Nat)
  | raised (e : String)
deriving DecidableEq, Repr

/-- Observable outcome of `main`: how the process ended, the per-test
result dicts accumulated in `results`, and how many test cases were begun
(per-query work started: the loop body was entered for them). -/
structure MainResult where
  ending : RunEnd
  results : List TestResult
  started : Nat
deriving DecidableEq, Repr

/-- The `for query, expected, desc in TEST_CASES:` loop of `main`.
`api i`, `vecSearch i`, `ftsSearch i` model the externals for the `i`-th
test case.  Returns the collected results, the abnormal ending (if
`run_test` exited or raised, which stops the loop), and the number of
cases begun. -/
def run_loop (OPENROUTER_API_KEY OPENAI_API_KEY : String)
    (api : Nat → String → String → ApiResult)
    (vecSearch : Nat → List ℚ → List VecResult) (ftsSearch : Nat → List FtsRow)
    (min_score : ℚ) :
    Nat → List (String × String × String) →
    List TestResult × Option RunEnd × Nat
  | _, [] => ([], none, 0)
  | i, c :: rest =>
    match run_test OPENROUTER_API_KEY OPENAI_API_KEY (api i) (vecSearch i)
        (ftsSearch i) c.1 c.2.1 min_score with
    | PyOutcome.ret r =>
      let t := run_loop OPENROUTER_API_KEY OPENAI_API_KEY api vecSearch ftsSearch
        min_score (i + 1) rest
      (r :: t.1, t.2.1, t.2.2 + 1)
    | PyOutcome.sysExit c2 => ([], some (RunEnd.exited c2), 1)
    | PyOutcome.exn e => ([], some (RunEnd.raised e), 1)

/-- `main()`.  `dbExists` models `os.path.exists(DB_PATH)`; the store-stat
prints are pure output and not modelled.  After the loop, `failed` counts
`FAIL` results and the process ends with `sys.exit(1 if failed > 0 else 0)`. -/
def main_run (OPENROUTER_API_KEY OPENAI_API_KEY : String)
    (api : Nat → String → String → ApiResult)
    (vecSearch : Nat → List ℚ → List VecResult) (ftsSearch : Nat → List FtsRow)
    (dbExists : Bool) (min_score : ℚ) : MainResult :=
  if dbExists then
    let t := run_loop OPENROUTER_API_KEY OPENAI_API_KEY api vecSearch ftsSearch
      min_score 0 TEST_CASES
    match t.2.1 with
    | some e => ⟨e, t.1, t.2.2⟩
    | none =>
      let failed := t.1.countP (fun r => r.status == Status.fail)
      ⟨RunEnd.exited (if 0 < failed then 1 else 0), t.1, t.2.2⟩
  else
    ⟨RunEnd.exited 1, [], 0⟩

/-- `min(scores)` on a Python list: `none` on the empty list (where Python
would raise), otherwise the least element. -/
def list_min : List ℚ → Option ℚ
  | [] => none
  | x :: xs =>
    match list_min xs with
    | none => some x
    | some m => some (min x m)

/-- The threshold recommendation of `main`'s summary (lines 312-317): only
when `below > 0`, collect `top_score` of the `BELOW_THRESHOLD` results and,
if nonempty, suggest `max(0.15, min(scores) - 0.05)`.  `none` means the
recommendation is not printed.  (`filterMap` reads the `top_score` key;
every `BELOW_THRESHOLD` result produced by `run_test` carries one.) -/
def suggested_threshold (results : List TestResult) : Option ℚ :=
  let below := results.countP (fun r => r.status == Status.below_threshold)
  if 0 < below then
    let scores := (results.filter (fun r => r.status == Status.below_threshold)).filterMap
      (fun r => r.top_score)
    match list_min scores with
    | some m => some (max (15 / 100 : ℚ) (m - 5 / 100))
    | none => none
  else
    none

/-- `sum(x * x for x in v)`: the squared L2 norm accumulated by `foldl`
exactly as Python's `sum` does. -/
def sumsq (v : List ℚ) : ℚ := v.foldl (fun s x => s + x * x) 0

/-- `sum(x * y for x, y in zip(a, b))`: the dot product over `zip`, which
truncates to the shorter list. -/
def dot_zip (a b : List ℚ) : ℚ := (List.zip a b).foldl (fun s p => s + p.1 * p.2) 0

/-- `sum(x * x for x in v) ** 0.5`: the L2 norm, an exact real square root
in this idealized (infinite-precision) model of Python float arithmetic. -/
noncomputable def l2_norm (v : List ℚ) : ℝ := Real.sqrt ((sumsq v : ℚ) : ℝ)

open Classical in
/-- `cosine_similarity(a, b)`: dot product over `zip(a, b)` divided by the
product of the full-vector L2 norms, with the source's guard
`if norm_a == 0 or norm_b == 0: return 0.0`. -/
noncomputable def cosine_similarity (a b : List ℚ) : ℝ :=
  if l2_norm a = 0 ∨ l2_norm b = 0 then 0
  else ((dot_zip a b : ℚ) : ℝ) / (l2_norm a * l2_norm b)

/-- The four little-endian bytes of a 32-bit word, as `struct.pack("<f")`
lays out one float32. -/
def le_bytes4 (w : Nat) : List Nat :=
  [w % 256, w / 256 % 256, w / 65536 % 256, w / 16777216 % 256]

/-- Reassemble 32-bit words from a little-endian byte stream, 4 bytes per
word, as `struct.unpack(f"<{n}f")` does with `n = len(blob) // 4` (a
trailing group of fewer than 4 bytes would make `struct.unpack` raise
`struct.error` in Python; it is dropped here and never arises from
`vec_to_blob` output). -/
def bytes_to_words : List Nat → List Nat
  | b0 :: b1 :: b2 :: b3 :: rest =>
    (b0 + b1 * 256 + b2 * 65536 + b3 * 16777216) :: bytes_to_words rest
  | _ => []

/-- Assemble a float32 bit pattern from sign, exponent field and fraction
field (masked to their widths). -/
def f32_assemble (s e f : Nat) : Nat :=
  (s % 2) * 2 ^ 31 + (e % 256) * 2 ^ 23 + f % 2 ^ 23

/-- `n / 2^sh` rounded to nearest, ties to even: the IEEE-754 rounding used
by the C double-to-float conversion inside `struct.pack("<f", x)`. -/
def round_half_even (n sh : Nat) : Nat :=
  let q := n / 2 ^ sh
  let r := n % 2 ^ sh
  if 2 ^ sh < 2 * r then q + 1
  else if 2 * r = 2 ^ sh then (if q % 2 = 1 then q + 1 else q) else q

/-- Floor base-2 logarithm via explicit fuel (structural recursion, so the
kernel can evaluate it; `Nat.log2` itself is well-founded recursion).  With
fuel 64 it agrees with the true log2 on every `n < 2^64`, which covers all
arguments arising here (binary64 significands are below `2^53` and binary32
fractions below `2^23`). -/
def log2p (fuel n : Nat) : Nat :=
  match fuel with
  | 0 => 0
  | f + 1 => if 2 ≤ n then log2p f (n / 2) + 1 else 0

/-- `log2p` at fuel 64: the floor base-2 logarithm on all inputs below
`2^64`. -/
def nat_log2 (n : Nat) : Nat := log2p 64 n

/-- Encode a correctly-rounded significand `n` at quantum exponent `qOff`
(offset by the binary64 scale 1075) into a float32 pattern with sign `s`:
renormalize a carry past 24 bits, then emit a subnormal, an infinity on
exponent overflow, or a normal number. -/
def f32_finalize (s n qOff : Nat) : Nat :=
  if n = 0 then f32_assemble s 0 0
  else
    let n2 := if 2 ^ 24 ≤ n then n / 2 else n
    let q2 := if 2 ^ 24 ≤ n then qOff + 1 else qOff
    if n2 < 2 ^ 23 then f32_assemble s 0 n2
    else if 1180 ≤ q2 then f32_assemble s 255 0
    else f32_assemble s (q2 - 925) (n2 - 2 ^ 23)

/-- Modelled from the semantics of C's double-to-float conversion (used by
`struct.pack("<f", x)` on the IEEE-754 doubles that are Python floats):
narrow a binary64 bit pattern to a binary32 bit pattern with
round-to-nearest-even, mapping overflow to the infinity pattern and any
NaN to a canonical quiet NaN.  Exponent bookkeeping is offset by the
binary64 scale: a finite double is `S * 2^(eAdj - 1075)` with integer
significand `S`. -/
def f64_to_f32 (w : Nat) : Nat :=
  let s := w / 2 ^ 63 % 2
  let e := w / 2 ^ 52 % 2 ^ 11
  let m := w % 2 ^ 52
  if e = 2047 then
    if m = 0 then f32_assemble s 255 0 else f32_assemble s 255 (2 ^ 22)
  else
    let S := (if e = 0 then 0 else 2 ^ 52) + m
    if S = 0 then f32_assemble s 0 0
    else
      let eAdj := max e 1
      let topOff := eAdj + nat_log2 S
      let qOff := max (topOff - 23) 926
      let n := if qOff ≤ eAdj then S * 2 ^ (eAdj - qOff)
               else round_half_even S (qOff - eAdj)
      f32_finalize s n qOff

/-- Modelled from the semantics of C's float-to-double conversion (used by
`struct.unpack("<f")`, whose result Python widens to a float): widen a
binary32 bit pattern to the binary64 bit pattern of the identical value
(exact: every float32 value is a float64 value). -/
def f32_to_f64 (w : Nat) : Nat :=
  let s := w / 2 ^ 31 % 2
  let e := w / 2 ^ 23 % 2 ^ 8
  let f := w % 2 ^ 23
  if e = 255 then s * 2 ^ 63 + 2047 * 2 ^ 52 + f * 2 ^ 29
  else if e = 0 then
    if f = 0 then s * 2 ^ 63
    else
      let L := nat_log2 f
      s * 2 ^ 63 + (L + 874) * 2 ^ 52 + f * 2 ^ (52 - L) % 2 ^ 52
  else s * 2 ^ 63 + (e + 896) * 2 ^ 52 + f * 2 ^ 29

/-- One element of `struct.pack(f"<{len(vec)}f", *vec)`: `none` models the
`OverflowError: float too large to pack with f format` that CPython raises
when a finite double is too large for float32 (instead of rounding to
infinity); otherwise the packed float32 bit pattern. -/
def pack_f32 (w : Nat) : Option Nat :=
  let e := w / 2 ^ 52 % 2 ^ 11
  let r := f64_to_f32 w
  if e ≠ 2047 ∧ r / 2 ^ 23 % 2 ^ 8 = 255 then none else some r

/-- `vec_to_blob(vec)`: pack each float as 4 little-endian float32 bytes;
`none` models the `OverflowError` escaping when any element is a finite
double too large for float32. -/
def vec_to_blob : List Nat → Option (List Nat)
  | [] => some []
  | x :: v =>
    match pack_f32 x, vec_to_blob v with
    | some w, some rest => some (le_bytes4 w ++ rest)
    | _, _ => none

/-- `blob_to_vec(blob)` on the `bytes` branch: `n = len(blob) // 4` float32
values are unpacked and widened to Python floats (binary64 bit patterns
here).  (The `str` branch parses a JSON array and the fallthrough returns
`[]`; they are not exercised by the serialization claims.) -/
def blob_to_vec (blob : List Nat) : List Nat :=
  (bytes_to_words blob).map f32_to_f64

/-- An embeddings response that `get_embedding`'s `except URLError` handler
copes with (a well-formed response, or a caught `URLError`): the run is not
aborted by it. -/
def ApiResult.benign : ApiResult → Prop
  | ApiResult.badJson => False
  | ApiResult.missingEmbedding => False
  | _ => True

/- ───────────────────────── helper lemmas ───────────────────────── -/

theorem foldl_add_sq (l : List ℚ) :
    ∀ init : ℚ, l.foldl (fun s x => s + x * x) init = init + (l.map fun x => x * x).sum := by
  induction l with
  | nil => intro init; simp
  | cons x xs ih => intro init; simp [ih, add_assoc]

theorem sumsq_eq_sum_map (l : List ℚ) : sumsq l = (l.map fun x => x * x).sum := by
  simpa using foldl_add_sq l 0

theorem sumsq_nonneg (l : List ℚ) : 0 ≤ sumsq l := by
  rw [sumsq_eq_sum_map]
  apply List.sum_nonneg
  intro y hy
  obtain ⟨x, -, rfl⟩ := List.mem_map.mp hy
  exact mul_self_nonneg x

theorem sumsq_eq_zero_of_zeros {l : List ℚ} (h : ∀ x ∈ l, x = 0) : sumsq l = 0 := by
  rw [sumsq_eq_sum_map]
  apply List.sum_eq_zero
  intro y hy
  obtain ⟨x, hx, rfl⟩ := List.mem_map.mp hy
  rw [h x hx]
  ring

theorem l2_norm_zero_of_zeros {l : List ℚ} (h : ∀ x ∈ l, x = 0) : l2_norm l = 0 := by
  unfold l2_norm
  rw [sumsq_eq_zero_of_zeros h]
  simp

theorem l2_norm_ne_zero {l : List ℚ} (h : sumsq l ≠ 0) : l2_norm l ≠ 0 := by
  unfold l2_norm
  rw [Real.sqrt_ne_zero']
  have h0 : (0 : ℚ) < sumsq l := lt_of_le_of_ne (sumsq_nonneg l) (Ne.symm h)
  exact_mod_cast h0

theorem zip_trunc {α β : Type} :
    ∀ (a : List α) (c : List β), c.length = a.length →
      ∀ d : List β, List.zip a (c ++ d) = List.zip a c := by
  intro a
  induction a with
  | nil => intro c _ d; simp [List.zip]
  | cons x xs ih =>
    intro c hc d
    cases c with
    | nil => simp at hc
    | cons y ys =>
      simp only [List.length_cons, Nat.succ.injEq] at hc
      simp [List.zip_cons_cons, ih ys hc d]

theorem f32_assemble_lt (s e f : Nat) : f32_assemble s e f < 2 ^ 32 := by
  unfold f32_assemble
  have h1 : s % 2 < 2 := Nat.mod_lt s (by norm_num)
  have h2 : e % 256 < 256 := Nat.mod_lt e (by norm_num)
  have h3 : f % 2 ^ 23 < 2 ^ 23 := Nat.mod_lt f (by positivity)
  norm_num at h1 h2 h3 ⊢
  omega

theorem f32_finalize_lt (s n q : Nat) : f32_finalize s n q < 2 ^ 32 := by
  unfold f32_finalize
  dsimp only
  split_ifs <;> apply f32_assemble_lt

theorem f64_to_f32_lt (w : Nat) : f64_to_f32 w < 2 ^ 32 := by
  unfold f64_to_f32
  dsimp only
  split_ifs <;> first
    | apply f32_assemble_lt
    | apply f32_finalize_lt

theorem bytes_le_roundtrip {w : Nat} (hw : w < 2 ^ 32) (rest : List Nat) :
    bytes_to_words (le_bytes4 w ++ rest) = w :: bytes_to_words rest := by
  simp only [le_bytes4, List.cons_append, List.nil_append, bytes_to_words]
  congr 1
  omega

theorem pack_f32_some {x w : Nat} (h : pack_f32 x = some w) :
    w = f64_to_f32 x ∧ w < 2 ^ 32 := by
  unfold pack_f32 at h
  dsimp only at h
  split_ifs at h
  all_goals cases h
  all_goals exact ⟨rfl, f64_to_f32_lt x⟩

theorem list_min_spec : ∀ {l : List ℚ} {m : ℚ},
    list_min l = some m → m ∈ l ∧ ∀ x ∈ l, m ≤ x := by
  intro l
  induction l with
  | nil => intro m h; cases h
  | cons x xs ih =>
    intro m h
    unfold list_min at h
    cases hx : list_min xs with
    | none =>
      rw [hx] at h
      simp only [Option.some.injEq] at h
      subst h
      have hxs : xs = [] := by
        cases xs with
        | nil => rfl
        | cons z zs =>
          exfalso
          unfold list_min at hx
          cases hz : list_min zs <;> rw [hz] at hx <;> simp at hx
      subst hxs
      refine ⟨List.mem_cons_self _ _, ?_⟩
      intro y hy
      rcases List.mem_cons.mp hy with rfl | hy2
      · exact le_refl _
      · cases hy2
    | some m2 =>
      rw [hx] at h
      simp only [Option.some.injEq] at h
      subst h
      obtain ⟨hmem, hle⟩ := ih hx
      constructor
      · rcases min_cases x m2 with ⟨hmin, -⟩ | ⟨hmin, -⟩
        · rw [hmin]; exact List.mem_cons_self _ _
        · rw [hmin]; exact List.mem_cons_of_mem _ hmem
      · intro y hy
        rcases List.mem_cons.mp hy with rfl | hy2
        · exact min_le_left _ _
        · exact le_trans (min_le_right x m2) (hle y hy2)

theorem list_min_isSome : ∀ {l : List ℚ}, l ≠ [] → (list_min l).isSome := by
  intro l h
  cases l with
  | nil => exact absurd rfl h
  | cons x xs =>
    unfold list_min
    cases hx : list_min xs <;> simp [hx]

/- ───────────────────────── claims ───────────────────────── -/

/-- C9: for every pair of vectors where either side has all-zero elements
(equivalently, either L2 norm is zero), `cosine_similarity` returns exactly
`0` — the guarded branch is taken and the division by the product of norms
is never performed on a zero denominator. -/
theorem cosine_zero_guard (a b : List ℚ)
    (h : (∀ x ∈ a, x = 0) ∨ (∀ x ∈ b, x = 0)) : cosine_similarity a b = 0 := by
  unfold cosine_similarity
  rw [if_pos]
  rcases h with h | h
  · exact Or.inl (l2_norm_zero_of_zeros h)
  · exact Or.inr (l2_norm_zero_of_zeros h)

/-- Witness for C9: the all-zero vector `[0, 0]` against `[1, 2]` scores
exactly `0`. -/
theorem cosine_zero_guard_witness : cosine_similarity [0, 0] [1, 2] = 0 :=
  cosine_zero_guard [0, 0] [1, 2] (Or.inl (by decide))

theorem zip_take_min {α β : Type} :
    ∀ (a : List α) (b : List β),
      List.zip a b
        = List.zip (a.take (min a.length b.length)) (b.take (min a.length b.length)) := by
  intro a
  induction a with
  | nil => intro b; simp
  | cons x xs ih =>
    intro b
    cases b with
    | nil => simp
    | cons y ys =>
      simp only [List.length_cons, Nat.succ_min_succ, List.take_succ_cons,
        List.zip_cons_cons]
      rw [ih ys]

/-- C10: `cosine_similarity` is total on every pair of float lists `a`, `b`,
including pairs of unequal length in either direction: the dot product is
taken over only the first `min(|a|, |b|)` component pairs (`zip`
truncation — it equals the dot product of the two truncated lists), while
each L2 norm is computed over the corresponding full vector, and the guard
returns `0` whenever either full-vector norm is zero — so a stored
embedding whose dimensionality differs from the query vector (longer or
shorter) yields a (reduced) score, never an error. -/
theorem cosine_zip_truncation (a b : List ℚ) :
    (sumsq a ≠ 0 → sumsq b ≠ 0 →
      cosine_similarity a b
        = ((dot_zip (a.take (min a.length b.length))
              (b.take (min a.length b.length)) : ℚ) : ℝ)
          / (l2_norm a * l2_norm b))
    ∧ ((sumsq a = 0 ∨ sumsq b = 0) → cosine_similarity a b = 0) := by
  constructor
  · intro ha hb
    unfold cosine_similarity
    rw [if_neg]
    · unfold dot_zip
      rw [← zip_take_min a b]
    · rintro (h | h)
      · exact l2_norm_ne_zero ha h
      · exact l2_norm_ne_zero hb h
  · intro h
    unfold cosine_similarity
    rw [if_pos]
    rcases h with h | h
    · left
      unfold l2_norm
      rw [h]
      simp
    · right
      unfold l2_norm
      rw [h]
      simp

/-- Witness for C10: the query vector `[1, 2]` against the *shorter*
stored vector `[3]`: the dot product only sees the pair `(1, 3)` but the
first norm covers all of `[1, 2]`. -/
theorem cosine_zip_truncation_witness :
    cosine_similarity [1, 2] [3]
      = ((dot_zip (([1, 2] : List ℚ).take
              (min ([1, 2] : List ℚ).length ([3] : List ℚ).length))
            (([3] : List ℚ).take
              (min ([1, 2] : List ℚ).length ([3] : List ℚ).length)) : ℚ) : ℝ)
        / (l2_norm [1, 2] * l2_norm [3]) :=
  (cosine_zip_truncation [1, 2] [3]).1
    (by norm_num [sumsq, List.foldl_cons, List.foldl_nil])
    (by norm_num [sumsq, List.foldl_cons, List.foldl_nil])

/-- Counterexample to C8 as stated: the claim quantifies over *every* float
vector, but for the finite double `2^128` (binary64 bit pattern
`1151 * 2^52`, whose value exceeds the largest float32) `struct.pack`
raises `OverflowError: float too large to pack with f format`, so
serialization produces no blob at all and there is nothing to round-trip. -/
theorem vec_blob_roundtrip_cex :
    vec_to_blob [1151 * 2 ^ 52] = none
    ∧ ¬∃ bs, vec_to_blob [1151 * 2 ^ 52] = some bs := by
  have h : vec_to_blob [1151 * 2 ^ 52] = none := by decide
  refine ⟨h, ?_⟩
  rintro ⟨bs, hbs⟩
  rw [h] at hbs
  cases hbs

/-- C8 (amended): for every float vector whose elements all pack
successfully (no element is a finite double whose float32 rounding
overflows — `struct.pack` raises `OverflowError` for those), deserializing
the packed little-endian blob reproduces the vector up to float32
rounding: the output has the same length and each element is the exact
double-precision widening of the float32 rounding of the original value. -/
theorem vec_blob_roundtrip (v bs : List Nat) (h : vec_to_blob v = some bs) :
    blob_to_vec bs = v.map (fun x => f32_to_f64 (f64_to_f32 x))
    ∧ (blob_to_vec bs).length = v.length := by
  suffices hmain : blob_to_vec bs = v.map (fun x => f32_to_f64 (f64_to_f32 x)) by
    exact ⟨hmain, by rw [hmain, List.length_map]⟩
  induction v generalizing bs with
  | nil =>
    unfold vec_to_blob at h
    cases h
    rfl
  | cons x rest ih =>
    unfold vec_to_blob at h
    cases hp : pack_f32 x with
    | none => rw [hp] at h; cases h
    | some w =>
      cases hv : vec_to_blob rest with
      | none => rw [hp, hv] at h; cases h
      | some bs2 =>
        rw [hp, hv] at h
        cases h
        obtain ⟨hw_eq, hw_lt⟩ := pack_f32_some hp
        unfold blob_to_vec
        rw [bytes_le_roundtrip hw_lt bs2, List.map_cons, List.map_cons]
        have ih2 := ih bs2 hv
        unfold blob_to_vec at ih2
        rw [ih2, hw_eq]

/-- Witness for C8 (amended): the double `1.0`
(bit pattern `4607182418800017408 = 0x3FF0000000000000`) packs to the four
bytes `[0, 0, 128, 63]` and deserializes back to itself. -/
theorem vec_blob_roundtrip_witness :
    blob_to_vec [0, 0, 128, 63]
      = List.map (fun x => f32_to_f64 (f64_to_f32 x)) [4607182418800017408]
    ∧ blob_to_vec [0, 0, 128, 63] = [4607182418800017408] := by
  refine ⟨(vec_blob_roundtrip [4607182418800017408] [0, 0, 128, 63] (by decide)).1, ?_⟩
  decide

/-- C4: the Evaluator's classification is total and mutually exclusive —
`classify_status` always yields exactly one of the four statuses (it is a
function into the four-valued `Status`), and the `skip` status is produced
precisely when the embedding call yielded an empty vector, taking
precedence over everything else. -/
theorem classify_total_skip_iff (query_vec : List ℚ) (vec_results : List VecResult)
    (fts_results : List FtsRow) (expected : String) (min_score : ℚ) :
    (classify_status query_vec vec_results fts_results expected min_score = Status.skip
      ↔ query_vec = [])
    ∧ (classify_status query_vec vec_results fts_results expected min_score = Status.skip
        ∨ classify_status query_vec vec_results fts_results expected min_score = Status.pass
        ∨ classify_status query_vec vec_results fts_results expected min_score
            = Status.below_threshold
        ∨ classify_status query_vec vec_results fts_results expected min_score
            = Status.fail) := by
  constructor
  · unfold classify_status
    by_cases h : query_vec = []
    · simp [h]
    · rw [if_neg h]
      dsimp only
      constructor
      · intro hc
        exfalso
        revert hc
        split_ifs <;> intro hc <;> cases hc
      · intro h2
        exact absurd h2 h
  · cases hs : classify_status query_vec vec_results fts_results expected min_score <;>
      simp

/-- Counterexample to C1 as stated: the expected substring appears in a
lexical result (`fts_pass` holds) and in a vector result below threshold
(`vec_any` holds, `vec_pass` does not), yet the final override
`if not vec_pass and vec_any` rewrites the already-assigned `PASS` to
`BELOW_THRESHOLD`: the lexical match does not promote a below-threshold
vector outcome to `PASS`. -/
theorem lexical_rescue_cex :
    classify_status [1] [⟨0, "p", "1-2", "the money question"⟩]
        [FtsRow.row "for money" "p" "3-4" 0] "money" 1 = Status.below_threshold
    ∧ Status.below_threshold ≠ Status.pass := by
  constructor
  · decide
  · decide

/-- C1 (amended): a lexical match promotes an otherwise-FAIL vector outcome
to `PASS` — when the expected substring appears in some lexical result and
in *no* vector result, the case is `PASS` even though the vector check
failed.  But it does not promote a below-threshold vector outcome: when the
expected substring appears in some vector result and in none at or above
the threshold, the case is `BELOW_THRESHOLD` regardless of the lexical
results. -/
theorem lexical_rescue_scope (query_vec : List ℚ) (vec_results : List VecResult)
    (fts_results : List FtsRow) (expected : String) (min_score : ℚ)
    (hq : query_vec ≠ []) :
    ((∃ r ∈ fts_results, lowerContains r.textOrEmpty expected = true) →
      (∀ r ∈ vec_results, lowerContains r.text expected = false) →
      classify_status query_vec vec_results fts_results expected min_score = Status.pass)
    ∧ ((∃ r ∈ vec_results, lowerContains r.text expected = true) →
      (∀ r ∈ vec_results, min_score ≤ r.score → lowerContains r.text expected = false) →
      classify_status query_vec vec_results fts_results expected min_score
        = Status.below_threshold) := by
  unfold classify_status
  rw [if_neg hq]
  dsimp only
  constructor
  · rintro ⟨r, hr, hcont⟩ hnone
    have hva : vec_results.any (fun r => lowerContains r.text expected) = false := by
      rw [List.any_eq_false]
      intro x hx
      simp [hnone x hx]
    have hvp : (vec_results.filter (fun r => min_score ≤ r.score)).any
        (fun r => lowerContains r.text expected) = false := by
      rw [List.any_eq_false]
      intro x hx
      simp [hnone x (List.mem_filter.mp hx).1]
    have hfp : fts_results.any (fun r => lowerContains r.textOrEmpty expected) = true :=
      List.any_eq_true.mpr ⟨r, hr, hcont⟩
    rw [hva, hvp, hfp]
    rfl
  · rintro ⟨r, hr, hcont⟩ hfilter
    have hva : vec_results.any (fun r => lowerContains r.text expected) = true :=
      List.any_eq_true.mpr ⟨r, hr, hcont⟩
    have hvp : (vec_results.filter (fun r => min_score ≤ r.score)).any
        (fun r => lowerContains r.text expected) = false := by
      rw [List.any_eq_false]
      intro x hx
      have hm := List.mem_filter.mp hx
      have hs : min_score ≤ x.score := by
        have := hm.2
        simpa using this
      simp [hfilter x hm.1 hs]
    rw [hva, hvp]
    rfl

/-- Witness for C1 (amended), first part: with a nonempty query vector, no
vector match at all, and one matching lexical row, the case is `PASS`. -/
theorem lexical_rescue_scope_witness :
    classify_status [1] [] [FtsRow.row "for money" "p" "3-4" 0] "money" 1 = Status.pass :=
  (lexical_rescue_scope [1] [] [FtsRow.row "for money" "p" "3-4" 0] "money" 1
      (by decide)).1
    ⟨FtsRow.row "for money" "p" "3-4" 0, by decide, by decide⟩
    (by intro r hr; cases hr)

/-- Counterexample to C2 as stated: a malformed response (body that fails
JSON parsing) is not a `URLError`, so `get_embedding` does not return an
empty vector — the `JSONDecodeError` escapes the `except URLError` handler
and aborts the run instead of being recorded as a skip. -/
theorem embedding_malformed_cex :
    get_embedding "k" "" (fun _ _ => ApiResult.badJson)
      = PyOutcome.exn "json.JSONDecodeError"
    ∧ (PyOutcome.exn "json.JSONDecodeError" : PyOutcome (List ℚ)) ≠ PyOutcome.ret [] := by
  constructor
  · decide
  · decide

theorem run_loop_urlError (ORKey OAKey msg : String)
    (api : Nat → String → String → ApiResult)
    (vecSearch : Nat → List ℚ → List VecResult) (ftsSearch : Nat → List FtsRow)
    (min_score : ℚ) (hk : ORKey ≠ "")
    (ha : ∀ i, api i openrouter_url ORKey = ApiResult.urlError msg) :
    ∀ (cs : List (String × String × String)) (i : Nat),
      run_loop ORKey OAKey api vecSearch ftsSearch min_score i cs
        = (cs.map (fun c => ⟨Status.skip, c.1, none, none⟩), none, cs.length) := by
  intro cs
  induction cs with
  | nil => intro i; rfl
  | cons c rest ih =>
    intro i
    have hrt : run_test ORKey OAKey (api i) (vecSearch i) (ftsSearch i) c.1 c.2.1 min_score
        = PyOutcome.ret ⟨Status.skip, c.1, none, none⟩ := by
      unfold run_test get_embedding
      rw [if_pos hk, ha i]
      rfl
    unfold run_loop
    rw [hrt]
    dsimp only
    rw [ih (i + 1)]
    simp

/-- C2 (amended): for every per-call embedding failure surfaced as a
`URLError` (network error, or a connect-phase timeout within the
15-second limit, which urllib wraps in `URLError`), `get_embedding`
returns an empty vector after logging a warning, and the caller records
the test case as `skip` and continues the run — here with every call
failing this way, all test cases are recorded as `skip` and the run
completes normally (exit code 0).  A malformed response is *not* covered:
it raises an uncaught exception (see the counterexample). -/
theorem embedding_url_error_skips (ORKey OAKey msg : String)
    (api : Nat → String → String → ApiResult)
    (vecSearch : Nat → List ℚ → List VecResult) (ftsSearch : Nat → List FtsRow)
    (min_score : ℚ) (hk : ORKey ≠ "")
    (ha : ∀ i, api i openrouter_url ORKey = ApiResult.urlError msg) :
    (∀ i, get_embedding ORKey OAKey (api i) = PyOutcome.ret [])
    ∧ main_run ORKey OAKey api vecSearch ftsSearch true min_score
        = ⟨RunEnd.exited 0,
           TEST_CASES.map (fun c => ⟨Status.skip, c.1, none, none⟩),
           TEST_CASES.length⟩ := by
  constructor
  · intro i
    unfold get_embedding
    rw [if_pos hk, ha i]
    rfl
  · unfold main_run
    rw [if_pos rfl]
    rw [run_loop_urlError ORKey OAKey msg api vecSearch ftsSearch min_score hk ha
      TEST_CASES 0]
    dsimp only
    have hc : (TEST_CASES.map
          (fun c => (⟨Status.skip, c.1, none, none⟩ : TestResult))).countP
        (fun r => r.status == Status.fail) = 0 := by
      rw [List.countP_eq_zero]
      intro r hr
      obtain ⟨c, -, rfl⟩ := List.mem_map.mp hr
      simp
    rw [hc]
    rfl

/-- Witness for C2 (amended): with the OpenRouter key set and every
embeddings call failing with a `URLError`, the whole run completes with
all ten cases recorded as `skip` and exit code 0. -/
theorem embedding_url_error_skips_witness :
    main_run "k" "" (fun _ _ _ => ApiResult.urlError "connection refused")
        (fun _ _ => []) (fun _ => []) true 1
      = ⟨RunEnd.exited 0,
         TEST_CASES.map (fun c => ⟨Status.skip, c.1, none, none⟩),
         TEST_CASES.length⟩ :=
  (embedding_url_error_skips "k" "" "connection refused"
      (fun _ _ _ => ApiResult.urlError "connection refused")
      (fun _ _ => []) (fun _ => []) 1 (by decide) (fun _ => rfl)).2

/-- Counterexample to C3 as stated: with neither credential present the
process does terminate with exit code 1, but not "before any per-query
work" — the credential check lives inside `get_embedding` and only runs
once the first test case has already begun (`started = 1`, not `0`): the
loop is entered, the first query's banner is printed and its timer
started, and only then does the embedding call exit. -/
theorem no_credentials_cex :
    (main_run "" "" (fun _ _ _ => ApiResult.ok [1]) (fun _ _ => []) (fun _ => [])
        true 1).ending = RunEnd.exited 1
    ∧ (main_run "" "" (fun _ _ _ => ApiResult.ok [1]) (fun _ _ => []) (fun _ => [])
        true 1).started = 1
    ∧ (1 : Nat) ≠ 0 := by
  refine ⟨rfl, rfl, by decide⟩

/-- C3 (amended): if neither credential environment variable is present,
the first embedding call terminates the process immediately with exit
code 1 — a configuration error, not a recorded per-query failure (no
result dict is produced, `results = []`); but the check is made inside
`get_embedding` during the first test case (`started = 1`), not as a
startup precondition before per-query work begins. -/
theorem no_credentials_exit (api : Nat → String → String → ApiResult)
    (vecSearch : Nat → List ℚ → List VecResult) (ftsSearch : Nat → List FtsRow)
    (min_score : ℚ) :
    main_run "" "" api vecSearch ftsSearch true min_score
      = ⟨RunEnd.exited 1, [], 1⟩ := by
  unfold main_run
  rw [if_pos rfl]
  have h1 : run_loop "" "" api vecSearch ftsSearch min_score 0 TEST_CASES
      = ([], some (RunEnd.exited 1), 1) := by
    unfold TEST_CASES run_loop run_test get_embedding
    rfl
  rw [h1]

/-- C6: with both credential environment variables set, the OpenRouter
(primary) backend is the one the embeddings request is sent to — its URL
and its bearer key — and the OpenAI (secondary) key is ignored: the
result is the same as if only the primary key were set. -/
theorem backend_precedence (ORKey OAKey : String) (api : String → String → ApiResult)
    (h1 : ORKey ≠ "") (h2 : OAKey ≠ "") :
    get_embedding ORKey OAKey api = embed_response (api openrouter_url ORKey)
    ∧ get_embedding ORKey OAKey api = get_embedding ORKey "" api := by
  constructor
  · unfold get_embedding
    rw [if_pos h1]
  · unfold get_embedding
    rw [if_pos h1, if_pos h1]

/-- Witness for C6: with both keys set and an oracle that answers `[1]` on
the OpenRouter endpoint and `[2]` on any other, the request goes to
OpenRouter. -/
theorem backend_precedence_witness :
    get_embedding "rk" "ok" (fun u _ =>
        if u = openrouter_url then ApiResult.ok [1] else ApiResult.ok [2])
      = PyOutcome.ret [1] := by
  rw [(backend_precedence "rk" "ok" (fun u _ =>
      if u = openrouter_url then ApiResult.ok [1] else ApiResult.ok [2])
    (by decide) (by decide)).1]
  rfl

theorem get_embedding_ret_of_benign (ORKey OAKey : String)
    (api : String → String → ApiResult)
    (hk : ORKey ≠ "" ∨ OAKey ≠ "") (hb : ∀ u k, (api u k).benign) :
    ∃ v, get_embedding ORKey OAKey api = PyOutcome.ret v := by
  unfold get_embedding
  by_cases h1 : ORKey ≠ ""
  · rw [if_pos h1]
    cases hc : api openrouter_url ORKey with
    | urlError m => exact ⟨[], rfl⟩
    | badJson =>
      have hbb := hb openrouter_url ORKey
      rw [hc] at hbb
      simp [ApiResult.benign] at hbb
    | missingEmbedding =>
      have hbb := hb openrouter_url ORKey
      rw [hc] at hbb
      simp [ApiResult.benign] at hbb
    | ok v => exact ⟨v, rfl⟩
  · rw [if_neg h1]
    have h2 : OAKey ≠ "" := hk.resolve_left h1
    rw [if_pos h2]
    cases hc : api openai_url OAKey with
    | urlError m => exact ⟨[], rfl⟩
    | badJson =>
      have hbb := hb openai_url OAKey
      rw [hc] at hbb
      simp [ApiResult.benign] at hbb
    | missingEmbedding =>
      have hbb := hb openai_url OAKey
      rw [hc] at hbb
      simp [ApiResult.benign] at hbb
    | ok v => exact ⟨v, rfl⟩

theorem run_test_ret_of_benign (ORKey OAKey : String)
    (api : String → String → ApiResult)
    (vecSearch : List ℚ → List VecResult) (ftsSearch : List FtsRow)
    (query expected : String) (min_score : ℚ)
    (hk : ORKey ≠ "" ∨ OAKey ≠ "") (hb : ∀ u k, (api u k).benign) :
    ∃ r, run_test ORKey OAKey api vecSearch ftsSearch query expected min_score
      = PyOutcome.ret r := by
  obtain ⟨v, hv⟩ := get_embedding_ret_of_benign ORKey OAKey api hk hb
  by_cases hn : v = []
  · subst hn
    exact ⟨⟨Status.skip, query, none, none⟩, by simp [run_test, hv]⟩
  · exact ⟨_, by simp only [run_test, hv]; rw [if_neg hn]⟩

theorem run_loop_complete (ORKey OAKey : String)
    (api : Nat → String → String → ApiResult)
    (vecSearch : Nat → List ℚ → List VecResult) (ftsSearch : Nat → List FtsRow)
    (min_score : ℚ)
    (hk : ORKey ≠ "" ∨ OAKey ≠ "") (hb : ∀ i u k, (api i u k).benign) :
    ∀ (cs : List (String × String × String)) (i : Nat),
      (run_loop ORKey OAKey api vecSearch ftsSearch min_score i cs).2.1 = none := by
  intro cs
  induction cs with
  | nil => intro i; rfl
  | cons c rest ih =>
    intro i
    obtain ⟨r, hr⟩ := run_test_ret_of_benign ORKey OAKey (api i) (vecSearch i)
      (ftsSearch i) c.1 c.2.1 min_score hk (fun u k => hb i u k)
    unfold run_loop
    rw [hr]
    dsimp only
    exact ih (i + 1)

/-- C5: over a run that completes all test cases (credentials present, the
store file in place, every embeddings response benign — well-formed or a
caught `URLError`), the process exits with code 1 exactly when at least one
test case is classified `FAIL`, and with code 0 exactly when none is —
`skip` and `BELOW_THRESHOLD` results (and the number of `PASS`es) have no
effect on the exit code. -/
theorem exit_code_contract (ORKey OAKey : String)
    (api : Nat → String → String → ApiResult)
    (vecSearch : Nat → List ℚ → List VecResult) (ftsSearch : Nat → List FtsRow)
    (min_score : ℚ)
    (hk : ORKey ≠ "" ∨ OAKey ≠ "") (hb : ∀ i u k, (api i u k).benign) :
    ((main_run ORKey OAKey api vecSearch ftsSearch true min_score).ending
        = RunEnd.exited 1
      ↔ ∃ r ∈ (main_run ORKey OAKey api vecSearch ftsSearch true min_score).results,
          r.status = Status.fail)
    ∧ ((main_run ORKey OAKey api vecSearch ftsSearch true min_score).ending
        = RunEnd.exited 0
      ↔ ∀ r ∈ (main_run ORKey OAKey api vecSearch ftsSearch true min_score).results,
          r.status ≠ Status.fail) := by
  have hnone := run_loop_complete ORKey OAKey api vecSearch ftsSearch min_score hk hb
    TEST_CASES 0
  unfold main_run
  rw [if_pos rfl]
  dsimp only
  rw [hnone]
  dsimp only
  by_cases hf : ∃ r ∈ (run_loop ORKey OAKey api vecSearch ftsSearch min_score
      0 TEST_CASES).1, r.status = Status.fail
  · have hc : 0 < (run_loop ORKey OAKey api vecSearch ftsSearch min_score
        0 TEST_CASES).1.countP (fun r => r.status == Status.fail) := by
      rw [List.countP_pos_iff]
      obtain ⟨r, hr, hs⟩ := hf
      exact ⟨r, hr, by simp [hs]⟩
    rw [if_pos hc]
    constructor
    · exact ⟨fun _ => hf, fun _ => rfl⟩
    · constructor
      · intro h10
        exfalso
        have : (1 : Nat) = 0 := RunEnd.exited.inj h10
        exact absurd this (by decide)
      · intro hall
        exfalso
        obtain ⟨r, hr, hs⟩ := hf
        exact hall r hr hs
  · have hc : (run_loop ORKey OAKey api vecSearch ftsSearch min_score
        0 TEST_CASES).1.countP (fun r => r.status == Status.fail) = 0 := by
      rw [List.countP_eq_zero]
      intro r hr
      simp only [beq_iff_eq]
      intro hs
      exact hf ⟨r, hr, hs⟩
    rw [hc]
    rw [if_neg (by decide)]
    constructor
    · constructor
      · intro h01
        exfalso
        have : (0 : Nat) = 1 := RunEnd.exited.inj h01
        exact absurd this (by decide)
      · intro hf2
        exact absurd hf2 hf
    · constructor
      · intro _ r hr hs
        exact hf ⟨r, hr, hs⟩
      · intro _
        rfl

/-- Witness for C5: with credentials set, oracles returning the nonempty
vector `[1]` for every query, and empty search results everywhere, every
test case is classified `FAIL`, and the run exits with code 1. -/
theorem exit_code_contract_witness :
    (main_run "k" "" (fun _ _ _ => ApiResult.ok [1]) (fun _ _ => []) (fun _ => [])
        true 1).ending = RunEnd.exited 1 :=
  (exit_code_contract "k" "" (fun _ _ _ => ApiResult.ok [1]) (fun _ _ => [])
      (fun _ => []) 1 (Or.inl (by decide)) (fun _ _ _ => trivial)).1.mpr
    (by decide)

/-- C7: the end-of-run summary carries a suggested threshold if and only
if at least one result is `BELOW_THRESHOLD` (with zero such cases the
recommendation is omitted entirely), and the suggested value equals
`max(0.15, s - 0.05)` where `s` is the lowest `top_score` among the
`BELOW_THRESHOLD` results.  The hypothesis — every `BELOW_THRESHOLD`
result carries a `top_score` — holds for every result `run_test` returns,
since only the skip dict omits that key. -/
theorem suggested_threshold_spec (results : List TestResult)
    (hinv : ∀ r ∈ results, r.status = Status.below_threshold → r.top_score ≠ none) :
    (suggested_threshold results ≠ none
      ↔ ∃ r ∈ results, r.status = Status.below_threshold)
    ∧ (∀ t, suggested_threshold results = some t →
        ∃ s, (∃ r ∈ results, r.status = Status.below_threshold ∧ r.top_score = some s)
          ∧ (∀ r ∈ results, r.status = Status.below_threshold →
              ∀ s2, r.top_score = some s2 → s ≤ s2)
          ∧ t = max (15 / 100 : ℚ) (s - 5 / 100)) := by
  have hmem : ∀ s : ℚ,
      s ∈ (results.filter (fun r => r.status == Status.below_threshold)).filterMap
          (fun r => r.top_score)
        ↔ ∃ r ∈ results, r.status = Status.below_threshold ∧ r.top_score = some s := by
    intro s
    rw [List.mem_filterMap]
    constructor
    · rintro ⟨r, hr, hs⟩
      have h2 := List.mem_filter.mp hr
      exact ⟨r, h2.1, by simpa using h2.2, hs⟩
    · rintro ⟨r, hr, hbt2, hs⟩
      exact ⟨r, List.mem_filter.mpr ⟨hr, by simp [hbt2]⟩, hs⟩
  by_cases hbt : ∃ r ∈ results, r.status = Status.below_threshold
  · obtain ⟨r0, hr0, hb0⟩ := hbt
    have hcount : 0 < results.countP (fun r => r.status == Status.below_threshold) := by
      rw [List.countP_pos_iff]
      exact ⟨r0, hr0, by simp [hb0]⟩
    cases hsc0 : r0.top_score with
    | none => exact absurd hsc0 (hinv r0 hr0 hb0)
    | some s0 =>
      have hs0mem : s0 ∈ (results.filter
          (fun r => r.status == Status.below_threshold)).filterMap
          (fun r => r.top_score) := (hmem s0).mpr ⟨r0, hr0, hb0, hsc0⟩
      have hne : (results.filter
          (fun r => r.status == Status.below_threshold)).filterMap
          (fun r => r.top_score) ≠ [] := by
        intro h0
        rw [h0] at hs0mem
        cases hs0mem
      obtain ⟨m, hm⟩ := Option.isSome_iff_exists.mp (list_min_isSome hne)
      have hsug : suggested_threshold results
          = some (max (15 / 100 : ℚ) (m - 5 / 100)) := by
        unfold suggested_threshold
        dsimp only
        rw [if_pos hcount, hm]
      obtain ⟨hm_mem, hm_le⟩ := list_min_spec hm
      constructor
      · rw [hsug]
        constructor
        · intro _
          exact ⟨r0, hr0, hb0⟩
        · intro _
          simp
      · intro t ht
        rw [hsug] at ht
        have ht2 := Option.some.inj ht
        obtain ⟨rm, hrm, hbm, hscm⟩ := (hmem m).mp hm_mem
        refine ⟨m, ⟨rm, hrm, hbm, hscm⟩, ?_, ht2.symm⟩
        intro r hr hb s2 hs2
        exact hm_le s2 ((hmem s2).mpr ⟨r, hr, hb, hs2⟩)
  · have hcount : results.countP (fun r => r.status == Status.below_threshold) = 0 := by
      rw [List.countP_eq_zero]
      intro r hr
      simp only [beq_iff_eq]
      intro hb
      exact hbt ⟨r, hr, hb⟩
    have hsug : suggested_threshold results = none := by
      unfold suggested_threshold
      dsimp only
      rw [hcount, if_neg (by decide)]
    constructor
    · rw [hsug]
      constructor
      · intro hcontra
        exact absurd rfl hcontra
      · intro h
        exact absurd h hbt
    · intro t ht
      rw [hsug] at ht
      cases ht

/-- Witness for C7: a single `BELOW_THRESHOLD` result (top score 1) makes
the summary emit a suggestion. -/
theorem suggested_threshold_spec_witness :
    suggested_threshold [⟨Status.below_threshold, "q", some 1, some 0⟩] ≠ none :=
  (suggested_threshold_spec [⟨Status.below_threshold, "q", some 1, some 0⟩]
      (by decide)).1.mpr (by decide)
